import Mathlib

/-!
Verification development for the caddy-docker-service-discovery daemon.

The Rust sources are shallowly embedded below.  Strings are Lean `String`s;
the Rust standard-library string operations that the sources use
(trim_end_matches, split, trim, starts_with) are modelled as structurally
recursive functions over the underlying character lists, matching the Rust
semantics.  Rust `HashSet<String>` is embedded as `Finset String`.  External
collaborators that the spec declares out of scope (the OS host resolver
`dns_lookup::lookup_host`, the URL parser `reqwest::Url`, the DNS-name
parser `hickory` `Name`) are modelled as explicit parameters or as small
faithful functions, noted at their definitions.
-/

namespace CaddySD

/-! ## Modelled Rust standard-library string operations (character-list level) -/

/-- Model of Rust whitespace trimming classification, restricted to the ASCII
whitespace characters that can occur in container label values. -/
def isWhitespaceChar (c : Char) : Bool :=
  c = ' ' || c = '\t' || c = '\n' || c = '\r'

/-- Model of Rust `str::trim` on a character list: drop leading and trailing
whitespace. -/
def trimChars (l : List Char) : List Char :=
  ((l.dropWhile isWhitespaceChar).reverse.dropWhile isWhitespaceChar).reverse

/-- Accumulator-passing splitter, modelling Rust `str::split(c)`. -/
def splitOnCharAux (c : Char) : List Char → List Char → List (List Char)
  | [], acc => [acc.reverse]
  | x :: xs, acc =>
    if x = c then acc.reverse :: splitOnCharAux c xs []
    else splitOnCharAux c xs (x :: acc)

/-- Model of Rust `str::split(c)`: split a character list at every occurrence
of `c`.  On the empty input it yields one empty piece, as in Rust. -/
def splitOnChar (c : Char) (l : List Char) : List (List Char) :=
  splitOnCharAux c l []

/-- One step of Rust `str::trim_end_matches(pat)`: the fuel argument bounds
the number of removals (each removal shortens the list, so length suffices).
Rust removes the suffix `pat` repeatedly while it is present. -/
def trimEndList (pat : List Char) : Nat → List Char → List Char
  | 0, l => l
  | Nat.succ n, l =>
    if pat.isSuffixOf l && !pat.isEmpty then
      trimEndList pat n (l.take (l.length - pat.length))
    else l

/-- Model of Rust `str::trim_end_matches(pat)` on `String`: repeatedly remove
the suffix `pat` while present. -/
def trim_end_matches (pat s : String) : String :=
  String.mk (trimEndList pat.data s.data.length s.data)

/-- First occurrence split: find the first occurrence of `sep` and return the
parts before and after it.  Used by the URL-host model. -/
def splitFirstSep (sep : List Char) : List Char → Option (List Char × List Char)
  | [] => if sep.isEmpty then some ([], []) else none
  | x :: xs =>
    if sep.isPrefixOf (x :: xs) then some ([], (x :: xs).drop sep.length)
    else
      match splitFirstSep sep xs with
      | some (a, b) => some (x :: a, b)
      | none => none

/-! ## Data model: the Registry entity (src/registry.rs) -/

/-- Embedding of `Registry` (src/registry.rs lines 43-57).  The `hostname`
field holds the string form of the hickory `Name`; `url` holds the source
string of the `reqwest::Url`; the Rust `HashSet<String>` service sets are
embedded as finite sets of strings. -/
structure Registry where
  hostname : String
  url : String
  public_services : Finset String
  private_services : Finset String
deriving DecidableEq

/-- Embedding of `Registry::new` (src/registry.rs lines 60-67): both service
sets start empty. -/
def Registry.new (hostname url : String) : Registry :=
  { hostname := hostname, url := url
    public_services := ∅, private_services := ∅ }

/-- Embedding of `Registry::has_public_service` (src/registry.rs line 85). -/
def Registry.has_public_service (r : Registry) (service : String) : Bool :=
  decide (service ∈ r.public_services)

/-- Embedding of `Registry::has_private_service` (src/registry.rs line 89). -/
def Registry.has_private_service (r : Registry) (service : String) : Bool :=
  decide (service ∈ r.private_services)

/-- Embedding of `Registry::add_public_service` (src/registry.rs line 93). -/
def Registry.add_public_service (r : Registry) (service : String) : Registry :=
  { r with public_services := insert service r.public_services }

/-- Embedding of `Registry::add_private_service` (src/registry.rs line 97). -/
def Registry.add_private_service (r : Registry) (service : String) : Registry :=
  { r with private_services := insert service r.private_services }

/-- Embedding of `Registry::clear_public_services` (src/registry.rs line 101). -/
def Registry.clear_public_services (r : Registry) : Registry :=
  { r with public_services := ∅ }

/-- Embedding of `Registry::clear_private_services` (src/registry.rs line 105). -/
def Registry.clear_private_services (r : Registry) : Registry :=
  { r with private_services := ∅ }

/-- Embedding of `Registry::flush_public_services` (src/registry.rs line 109):
wholesale replacement of the public set. -/
def Registry.flush_public_services (r : Registry) (services : Finset String) : Registry :=
  { r with public_services := services }

/-- Modelled external collaborator: host extraction of `reqwest::Url::parse`
followed by `.host_str()`, faithful on the hierarchical URLs this program
handles.  Parsing requires a nonempty scheme before a literal colon-slash-slash
separator; the host is the authority up to the first colon or slash and must be
nonempty (mirroring `host_str()` returning `None` for hostless URLs, and
`Url::parse` failing on strings without a scheme). -/
def url_host_str (s : String) : Option String :=
  match splitFirstSep [':', '/', '/'] s.data with
  | none => none
  | some (scheme, rest) =>
    if scheme.isEmpty then none
    else
      match (rest.takeWhile fun c => c ≠ '/').takeWhile (fun c => c ≠ ':') with
      | [] => none
      | host => some (String.mk host)

/-- Modelled external collaborator: `hickory` `Name::from_str` followed by
`to_string`, kept at the string level — parsing a nonempty host label yields
the same string form. -/
def name_from_str (s : String) : Option String :=
  if s.isEmpty then none else some s

/-- Embedding of `FromStr for Registry` (src/registry.rs lines 114-128): parse
the string as a URL, extract its host, parse the host as a DNS name, and build
a registry with empty service sets. -/
def Registry.from_str (s : String) : Option Registry :=
  match url_host_str s with
  | none => none
  | some host =>
    match name_from_str host with
    | none => none
    | some hostname => some (Registry.new hostname s)

/-! ## DNS resolver (src/dns.rs) -/

/-- Embedding of `std::net::IpAddr` as returned by `dns_lookup::lookup_host`:
an IPv4 address (held as a natural) or some other (IPv6) address. -/
inductive IpAddr where
  | v4 (ip : Nat)
  | v6 (ip : Nat)
deriving DecidableEq

/-- Embedding of the produced `RData`: the code only ever synthesizes `A`
records. -/
inductive RData where
  | A (ip : Nat)
deriving DecidableEq

/-- The external OS resolver `dns_lookup::lookup_host`, out of scope per the
spec and passed as a parameter: a name resolves to a list of addresses or
fails. -/
def LookupHost : Type := String → Option (List IpAddr)

/-- Embedding of `Dns::query_upstream` (src/dns.rs lines 34-43): resolve the
name, take the first IPv4 address, wrap it as `A` record data. -/
def query_upstream (lookup : LookupHost) (name : String) : Option RData :=
  ((lookup name).bind fun addrs =>
    addrs.findSome? fun addr =>
      match addr with
      | IpAddr.v4 ip => some ip
      | IpAddr.v6 _ => none).map RData.A

/-- Embedding of `TryInto<RData> for Registry` (src/registry.rs lines
130-144): resolve the registry hostname upstream; error when no IPv4 address
is found. -/
def Registry.try_into_rdata (lookup : LookupHost) (r : Registry) : Except String RData :=
  match query_upstream lookup r.hostname with
  | some data => Except.ok data
  | none => Except.error ("No IPv4 address found for hostname " ++ r.hostname ++ ".")

/-- Embedding of `Dns::query_self_registry` (src/dns.rs lines 45-64): when the
self registry holds the service publicly or privately, synthesize record data
from its hostname, dropping the error to `none`. -/
def query_self_registry (lookup : LookupHost) (self_registry : Registry)
    (service : String) : Option RData :=
  if self_registry.has_public_service service || self_registry.has_private_service service then
    (self_registry.try_into_rdata lookup).toOption
  else
    none

/-- Embedding of `Dns::query_registries` (src/dns.rs lines 66-88): scan the
peer list in order and return at the first peer whose public set holds the
service, synthesizing from that peer's hostname (errors drop to `none`
without consulting later peers). -/
def query_registries (lookup : LookupHost) (registries : List Registry)
    (service : String) : Option RData :=
  match registries with
  | [] => none
  | registry :: rest =>
    if registry.has_public_service service then
      (registry.try_into_rdata lookup).toOption
    else
      query_registries lookup rest service

/-- The two fixed TLD constants (src/constants.rs lines 10-11). -/
def PUBLIC_SERVICE_TLD : String := "public"

/-- Private TLD constant (src/constants.rs line 11). -/
def PRIVATE_SERVICE_TLD : String := "private"

/-- Embedding of the service-key extraction in `Dns::handle_request`
(src/dns.rs lines 100-105): trim all trailing dots, then trailing
occurrences of the dotted public TLD, then trailing occurrences of the
dotted private TLD — each stage with Rust `trim_end_matches` semantics. -/
def extract_service (name : String) : String :=
  trim_end_matches ("." ++ PRIVATE_SERVICE_TLD)
    (trim_end_matches ("." ++ PUBLIC_SERVICE_TLD)
      (trim_end_matches "." name))

/-- Response codes the handler can produce. -/
inductive ResponseCode where
  | NoError
  | NXDomain
deriving DecidableEq

/-- One answer record as built by `Record::from_rdata(name.into(), 0, data)`. -/
structure DnsRecord where
  name : String
  ttl : Nat
  data : RData
deriving DecidableEq

/-- The observable DNS reply: answer records, response code, and the header
flags the handler sets. -/
structure DnsReply where
  answers : List DnsRecord
  rcode : ResponseCode
  authoritative : Bool
  recursion_available : Bool
deriving DecidableEq

/-- Embedding of `Dns::handle_request` (src/dns.rs lines 93-146): extract the
service key, cascade self-registry, peer registries, then upstream on the
original query name via `Option.or` exactly as the Rust `.or()` chain, and
build either an answer with one TTL-0 record or an NXDOMAIN reply; the header
has authoritative and recursion-available set in both cases. -/
def handle_request (lookup : LookupHost) (self_registry : Registry)
    (registries : List Registry) (name : String) : DnsReply :=
  match ((query_self_registry lookup self_registry (extract_service name)).or
      (query_registries lookup registries (extract_service name))).or
      (query_upstream lookup name) with
  | some data =>
    { answers := [{ name := name, ttl := 0, data := data }]
      rcode := ResponseCode.NoError
      authoritative := true, recursion_available := true }
  | none =>
    { answers := []
      rcode := ResponseCode.NXDomain
      authoritative := true, recursion_available := true }

/-! ## HTTP registry API (src/api.rs) -/

/-- Embedding of an inbound PUT body at the JSON-value level: either a JSON
array of strings, or any body on which `serde_json::from_str::<HashSet<String>>`
fails. -/
inductive Body where
  | json (values : List String)
  | malformed
deriving DecidableEq

/-- Model of `serde_json::from_str::<HashSet<String>>` on the body: a JSON
array of strings decodes to the set of its elements; anything else fails. -/
def decode_services : Body → Option (Finset String)
  | Body.json values => some values.toFinset
  | Body.malformed => none

/-- Response bodies of the PUT route; every outcome is an HTTP 200 in the
source (src/api.rs lines 63-80), so only the body distinguishes them. -/
inductive PutResponse where
  | Success
  | InvalidServices
  | InvalidRegistry
deriving DecidableEq

/-- Response of the GET services route: a JSON array of the peer's public
services, or the literal body null when no peer matches. -/
inductive GetServicesResponse where
  | json (services : Finset String)
  | nullBody
deriving DecidableEq

/-- Embedding of `get_registry_services` (src/api.rs lines 36-49): find the
first peer whose hostname string equals the path segment and return its public
services; otherwise the literal null body. -/
def get_registry_services (registry_hostname : String)
    (registries : List Registry) : GetServicesResponse :=
  match registries.find? (fun r => r.hostname == registry_hostname) with
  | some r => GetServicesResponse.json r.public_services
  | none => GetServicesResponse.nullBody

/-- Embedding of `put_registry_services` (src/api.rs lines 51-81).  The Rust
handler looks for the first peer whose hostname string equals the path
segment: on a match it replaces that peer's public set with the decoded body
(Success) or leaves everything unchanged on a decode failure (Invalid
services); with no match it parses the segment as a registry URL and appends
a fresh peer with empty sets (Success) or rejects (Invalid registry).  The
recursion reproduces find-first-or-append-at-end over the peer list. -/
def put_registry_services (registry_hostname : String) (services : Body)
    (registries : List Registry) : PutResponse × List Registry :=
  match registries with
  | [] =>
    match Registry.from_str registry_hostname with
    | some r => (PutResponse.Success, [r])
    | none => (PutResponse.InvalidRegistry, [])
  | r :: rest =>
    if r.hostname = registry_hostname then
      match decode_services services with
      | some set => (PutResponse.Success, r.flush_public_services set :: rest)
      | none => (PutResponse.InvalidServices, r :: rest)
    else
      ((put_registry_services registry_hostname services rest).1,
       r :: (put_registry_services registry_hostname services rest).2)

/-- Embedding of the request `dispatch_registry_services` sends to one peer
(src/api.rs lines 168-197): the PUT path segment is the string form of the
self hostname, and the body is the JSON array serialization of the self
registry's public services.  A Rust `HashSet` serializes its elements in an
arbitrary order; the model enumerates the set in sorted order, which is one
such enumeration. -/
def dispatch_request (self_registry : Registry) : String × Body :=
  (self_registry.hostname,
   Body.json (self_registry.public_services.sort (fun a b => a ≤ b)))

/-- Embedding of `Env::get_registries` (src/env.rs lines 81-93): split the
REGISTRY_URLS value on single spaces and parse every piece as a registry,
failing wholesale when any piece fails; no deduplication is performed. -/
def get_registries (urls : String) : Option (List Registry) :=
  (splitOnChar ' ' urls.data).mapM fun u => Registry.from_str (String.mk u)

/-! ## Container-label harvester (src/docker.rs) -/

/-- Container snapshot as the harvester consumes it: a name and its labels.
Rust iterates a `HashMap` of labels; the association list fixes one iteration
order, which cannot affect the resulting sets. -/
structure Container where
  name : String
  labels : List (String × String)

/-- Embedding of CADDY_LABEL_REGEX (src/docker.rs lines 19-20), the anchored
alternation of the exact key caddy or caddy underscore digits. -/
def is_caddy_label (label : String) : Bool :=
  label = "caddy" ||
    ("caddy_".data.isPrefixOf label.data &&
      !(label.data.drop 6).isEmpty && (label.data.drop 6).all Char.isDigit)

/-- Embedding of SNIPPET_VALUE_REGEX (src/docker.rs line 21), the anchored
parenthesized form: an opening parenthesis, any non-newline characters, a
closing parenthesis. -/
def is_snippet_value (v : String) : Bool :=
  2 ≤ v.data.length && v.data.head? = some '(' && v.data.getLast? = some ')'
    && !((v.data.drop 1).dropLast.contains '\n')

/-- Embedding of `Docker::get_caddy_values` (src/docker.rs lines 71-84): keep
values of caddy-keyed labels that are not snippet definitions. -/
def get_caddy_values (c : Container) : List String :=
  (c.labels.filter fun kv => is_caddy_label kv.1 && !is_snippet_value kv.2).map
    fun kv => kv.2

/-- Embedding of `Docker::parse_address` (src/docker.rs lines 86-99): split on
commas, trim, split on spaces, trim again, and drop empty pieces. -/
def parse_address (address : String) : List String :=
  ((splitOnChar ',' address.data).flatMap fun piece =>
    (splitOnChar ' ' (trimChars piece)).map trimChars).filterMap
    fun token => if token.isEmpty then none else some (String.mk token)

/-- Model of Rust scheme stripping performed by the leading optional group of
the TLD regexes: an http or https scheme at the start of the token is
consumed when present. -/
def strip_scheme (l : List Char) : List Char :=
  if "http://".data.isPrefixOf l then l.drop 7
  else if "https://".data.isPrefixOf l then l.drop 8
  else l

/-- Longest all-digit suffix of a token, used to model the optional port
group of the TLD regexes. -/
def trailing_digits (l : List Char) : List Char :=
  (l.reverse.takeWhile Char.isDigit).reverse

/-- Embedding of `Docker::capture_service` with PUBLIC_TLD_REGEX or
PRIVATE_TLD_REGEX (src/docker.rs lines 22-35, 101-105).  The regex demands,
after an optional scheme, a greedy capture followed by a literal dot, the TLD,
an optional colon-digits port, and end of string; the captured group is
everything before that suffix.  Matching succeeds exactly when the token (with
scheme removed) ends in the dotted TLD, or in the dotted TLD, a colon, and a
nonempty digit run reaching the end. -/
def capture_service (address : String) (tld : String) : Option String :=
  match strip_scheme address.data with
  | r =>
    if (('.' :: tld.data).isSuffixOf r) then
      some (String.mk (r.take (r.length - ('.' :: tld.data).length)))
    else
      if !(trailing_digits r).isEmpty &&
          (('.' :: tld.data) ++ [':']).isSuffixOf (r.take (r.length - (trailing_digits r).length)) then
        some (String.mk (r.take (r.length - (trailing_digits r).length - (('.' :: tld.data).length + 1))))
      else
        none

/-- Embedding of the per-token closure `process_address` inside
`Docker::flush_registry_services` (src/docker.rs lines 112-126): a public
capture wins, otherwise a private capture, otherwise the token is ignored. -/
def process_address (r : Registry) (address : String) : Registry :=
  match capture_service address PUBLIC_SERVICE_TLD with
  | some service => r.add_public_service service
  | none =>
    match capture_service address PRIVATE_SERVICE_TLD with
    | some service => r.add_private_service service
    | none => r

/-- Embedding of the per-container closure `process_container`
(src/docker.rs lines 128-141): every parsed address of every caddy value is
processed in order. -/
def process_container (r : Registry) (c : Container) : Registry :=
  (get_caddy_values c).foldl
    (fun reg value => (parse_address value).foldl process_address reg) r

/-- Embedding of the successful-listing path of
`Docker::flush_registry_services` (src/docker.rs lines 107-163): clear both
service sets, then process every running container. -/
def flush_registry_services (r : Registry) (containers : List Container) : Registry :=
  containers.foldl process_container
    (r.clear_public_services.clear_private_services)

/-- The flat token list a container list feeds through `process_address`,
in processing order. -/
def harvest_tokens (containers : List Container) : List String :=
  containers.flatMap fun c => (get_caddy_values c).flatMap parse_address

/-- Helper for `extract_service_spec`: the spec's stripping on character
lists — one trailing dot, then at most one trailing TLD suffix. -/
def extract_service_spec_list (l : List Char) : List Char :=
  match (if ['.'].isSuffixOf l then l.take (l.length - 1) else l) with
  | s =>
    if ".public".data.isSuffixOf s then s.take (s.length - 7)
    else if ".private".data.isSuffixOf s then s.take (s.length - 8)
    else s

/-- Definition following the SPEC's words, for comparison with
`extract_service` (claim C5): strip one trailing dot, then strip at most one
trailing dotted public-TLD or dotted private-TLD suffix — never both, never
more than one occurrence. -/
def extract_service_spec (name : String) : String :=
  String.mk (extract_service_spec_list name.data)

/-! ## Concrete resolvers and registries used by DNS witnesses -/

/-- Concrete resolver: resolves the literal query name svc.public. to one
IPv4 address and fails on everything else (in particular on the hostname
alpha). -/
def lookupOnlyQueryName : LookupHost :=
  fun n => if n = "svc.public." then some [IpAddr.v4 93] else none

/-- Concrete resolver that fails on every name. -/
def lookupNone : LookupHost := fun _ => none

/-- Concrete resolver resolving only the hostnames alpha and delta. -/
def lookupAlphaDelta : LookupHost :=
  fun n =>
    if n = "alpha" then some [IpAddr.v6 1, IpAddr.v4 11]
    else if n = "delta" then some [IpAddr.v4 44] else none

/-- Concrete self registry owning the public service svc. -/
def selfWithSvc : Registry :=
  (Registry.new "alpha" "http://0.0.0.0:3000").add_public_service "svc"

/-- Concrete peer registry on host beta advertising svc publicly. -/
def betaWithSvc : Registry :=
  (Registry.new "beta" "http://beta:3000").add_public_service "svc"

/-- Concrete peer registry on host delta advertising svc publicly. -/
def deltaWithSvc : Registry :=
  (Registry.new "delta" "http://delta:3000").add_public_service "svc"

/-! ## Helper lemmas -/

theorem put_found_invalid_services (seg : String) (regs : List Registry)
    (h : ∃ r ∈ regs, r.hostname = seg) :
    put_registry_services seg Body.malformed regs
      = (PutResponse.InvalidServices, regs) := by
  induction regs with
  | nil => simp at h
  | cons r rest ih =>
    by_cases hr : r.hostname = seg
    · simp [put_registry_services, hr, decode_services]
    · obtain ⟨q, hq, hq2⟩ := h
      rcases List.mem_cons.mp hq with rfl | hmem
      · exact absurd hq2 hr
      · simp [put_registry_services, hr, ih ⟨q, hmem, hq2⟩]

theorem put_found_hostnames (seg : String) (body : Body) (regs : List Registry)
    (h : ∃ r ∈ regs, r.hostname = seg) :
    ((put_registry_services seg body regs).2).map Registry.hostname
      = regs.map Registry.hostname := by
  induction regs with
  | nil => simp at h
  | cons r rest ih =>
    by_cases hr : r.hostname = seg
    · cases hd : decode_services body with
      | some set =>
        simp [put_registry_services, hr, hd, Registry.flush_public_services]
      | none => simp [put_registry_services, hr, hd]
    · obtain ⟨q, hq, hq2⟩ := h
      rcases List.mem_cons.mp hq with rfl | hmem
      · exact absurd hq2 hr
      · simp [put_registry_services, hr, ih ⟨q, hmem, hq2⟩]

theorem get_after_put (seg : String) (s : Finset String) (values : List String)
    (hv : values.toFinset = s) (regs : List Registry)
    (h : ∃ r ∈ regs, r.hostname = seg) :
    get_registry_services seg
        ((put_registry_services seg (Body.json values) regs).2)
      = GetServicesResponse.json s := by
  induction regs with
  | nil => simp at h
  | cons r rest ih =>
    by_cases hr : r.hostname = seg
    · simp [put_registry_services, hr, decode_services, hv,
        get_registry_services, Registry.flush_public_services, List.find?_cons]
    · obtain ⟨q, hq, hq2⟩ := h
      rcases List.mem_cons.mp hq with rfl | hmem
      · exact absurd hq2 hr
      · have hrec := ih ⟨q, hmem, hq2⟩
        simp only [put_registry_services, if_neg hr]
        simpa [get_registry_services, List.find?_cons, hr] using hrec

theorem query_registries_none (lookup : LookupHost) (regs : List Registry)
    (svc : String) (h : ∀ r ∈ regs, r.has_public_service svc = false) :
    query_registries lookup regs svc = none := by
  induction regs with
  | nil => rfl
  | cons r rest ih =>
    simp [query_registries, h r (List.mem_cons_self r rest)]
    exact ih fun q hq => h q (List.mem_cons_of_mem r hq)

theorem query_registries_skip (lookup : LookupHost) (pre regs : List Registry)
    (svc : String) (h : ∀ r ∈ pre, r.has_public_service svc = false) :
    query_registries lookup (pre ++ regs) svc = query_registries lookup regs svc := by
  induction pre with
  | nil => rfl
  | cons p rest ih =>
    simp [query_registries, h p (List.mem_cons_self p rest)]
    exact ih fun q hq => h q (List.mem_cons_of_mem p hq)

theorem from_str_sets (s : String) (r : Registry) (h : Registry.from_str s = some r) :
    r.public_services = ∅ ∧ r.private_services = ∅ := by
  unfold Registry.from_str at h
  cases hu : url_host_str s with
  | none => rw [hu] at h; exact absurd h (by simp)
  | some host =>
    rw [hu] at h
    cases hn : name_from_str host with
    | none => simp [hn] at h
    | some hostname =>
      simp [hn] at h
      subst h
      exact ⟨rfl, rfl⟩

/-! ## Claim C8 -/

/-- C8: a PUT whose path segment matches an existing peer's hostname string
but whose body fails to decode as a JSON array of strings is answered with
the Invalid services body (the source sends it with HTTP status 200, the only
status the handler ever produces), and the peer list — in particular that
peer's public service set — is exactly what it was before the request. -/
theorem C8_put_malformed_unchanged (seg : String) (regs : List Registry)
    (h : ∃ r ∈ regs, r.hostname = seg) :
    put_registry_services seg Body.malformed regs
      = (PutResponse.InvalidServices, regs) :=
  put_found_invalid_services seg regs h

/-- Witness for C8 at a concrete peer list. -/
theorem C8_put_malformed_unchanged_witness :
    put_registry_services "beta" Body.malformed
        [(Registry.new "beta" "http://beta:3000").add_public_service "analytics"]
      = (PutResponse.InvalidServices,
         [(Registry.new "beta" "http://beta:3000").add_public_service "analytics"]) :=
  C8_put_malformed_unchanged "beta"
    [(Registry.new "beta" "http://beta:3000").add_public_service "analytics"]
    (by decide)

/-! ## Claim C6 -/

/-- C6: push/pull round-trip.  When node B holds a peer registry whose
hostname string equals node A's self hostname, and A dispatches its public
service set to B (the PUT request built by dispatch_registry_services), then
with no further updates B's GET for A's hostname returns exactly A's public
service set. -/
theorem C6_push_pull_round_trip (A : Registry) (regs : List Registry)
    (h : ∃ r ∈ regs, r.hostname = A.hostname) :
    get_registry_services (dispatch_request A).1
        ((put_registry_services (dispatch_request A).1 (dispatch_request A).2 regs).2)
      = GetServicesResponse.json A.public_services := by
  have hs := get_after_put A.hostname A.public_services
    (A.public_services.sort fun a b => a ≤ b)
    (Finset.sort_toFinset _ A.public_services) regs h
  simpa [dispatch_request] using hs

/-- Witness for C6 at a concrete pusher and peer list. -/
theorem C6_push_pull_round_trip_witness :
    get_registry_services
        (dispatch_request (((Registry.new "alpha" "http://alpha:3000").add_public_service "billing").add_public_service "api")).1
        ((put_registry_services
          (dispatch_request (((Registry.new "alpha" "http://alpha:3000").add_public_service "billing").add_public_service "api")).1
          (dispatch_request (((Registry.new "alpha" "http://alpha:3000").add_public_service "billing").add_public_service "api")).2
          [Registry.new "alpha" "http://alpha:3000", Registry.new "beta" "http://beta:3000"]).2)
      = GetServicesResponse.json
          (((Registry.new "alpha" "http://alpha:3000").add_public_service "billing").add_public_service "api").public_services :=
  C6_push_pull_round_trip
    (((Registry.new "alpha" "http://alpha:3000").add_public_service "billing").add_public_service "api")
    [Registry.new "alpha" "http://alpha:3000", Registry.new "beta" "http://beta:3000"]
    (by decide)

/-! ## Claim C3 -/

/-- C3 counterexample: a node with no peer registry whose hostname string
equals the URL-shaped path segment receives the self-registration PUT of
scenario 4 with body the JSON array of the single element x.  It does reply
Success and appends a peer for host gamma, but that peer's public service
set is empty, not the pushed set: the body is discarded on this path. -/
theorem C3_counterexample :
    (put_registry_services "http://gamma:3000" (Body.json ["x"]) []).1
        = PutResponse.Success ∧
    ((put_registry_services "http://gamma:3000" (Body.json ["x"]) []).2).map
        Registry.hostname = ["gamma"] ∧
    ((put_registry_services "http://gamma:3000" (Body.json ["x"]) []).2).map
        Registry.public_services = [∅] ∧
    ((put_registry_services "http://gamma:3000" (Body.json ["x"]) []).2).map
        Registry.public_services ≠ [({"x"} : Finset String)] := by
  decide

/-- C3 amended: when no peer's hostname string equals the path segment and
the segment parses as a URL, the node replies Success and afterwards holds a
new peer registry for that host appended at the end of the list — but with
EMPTY public and private service sets: the request body is ignored during
self-registration, whatever it contains. -/
theorem C3_self_registration_appends_empty (seg : String) (body : Body)
    (regs : List Registry) (r : Registry)
    (hfind : ∀ q ∈ regs, q.hostname ≠ seg)
    (hparse : Registry.from_str seg = some r) :
    put_registry_services seg body regs = (PutResponse.Success, regs ++ [r]) ∧
    r.public_services = ∅ ∧ r.private_services = ∅ := by
  refine ⟨?_, from_str_sets seg r hparse⟩
  induction regs with
  | nil => simp [put_registry_services, hparse]
  | cons q rest ih =>
    have hq : ¬q.hostname = seg := hfind q (List.mem_cons_self q rest)
    have hrec := ih fun p hp => hfind p (List.mem_cons_of_mem q hp)
    simp [put_registry_services, hq, hrec]

/-- Witness for C3's amended claim at the concrete scenario-4 input. -/
theorem C3_self_registration_appends_empty_witness :
    put_registry_services "http://gamma:3000" (Body.json ["x"]) []
        = (PutResponse.Success, [] ++ [Registry.new "gamma" "http://gamma:3000"]) ∧
    (Registry.new "gamma" "http://gamma:3000").public_services = ∅ ∧
    (Registry.new "gamma" "http://gamma:3000").private_services = ∅ :=
  C3_self_registration_appends_empty "http://gamma:3000" (Body.json ["x"]) []
    (Registry.new "gamma" "http://gamma:3000") (by decide) (by decide)

/-! ## Claim C9 -/

/-- C9 counterexample: startup configuration alone already produces two peer
registry entries sharing the hostname string a — Env::get_registries parses
the space-separated REGISTRY_URLS value without any deduplication — so the
peer hostname strings are not pairwise distinct in this reachable state. -/
theorem C9_counterexample :
    (get_registries "http://a:1 http://a:2").map (List.map Registry.hostname)
        = some ["a", "a"] ∧
    ¬(["a", "a"] : List String).Nodup := by
  decide

/-- C9 amended: the only duplicate protection the code has is the PUT lookup
by literal hostname string: a PUT whose path segment equals an existing
peer's hostname string never appends a peer (the hostname list is preserved
exactly).  Startup URLs are not deduplicated and URL-shaped segments bypass
the check, so pairwise-distinct hostnames do not hold in general. -/
theorem C9_put_existing_hostname_preserves_peers (seg : String) (body : Body)
    (regs : List Registry) (h : ∃ r ∈ regs, r.hostname = seg) :
    ((put_registry_services seg body regs).2).map Registry.hostname
      = regs.map Registry.hostname :=
  put_found_hostnames seg body regs h

/-- Witness for C9's amended claim. -/
theorem C9_put_existing_hostname_preserves_peers_witness :
    ((put_registry_services "beta" (Body.json ["y"])
        [Registry.new "beta" "http://beta:3000",
         Registry.new "delta" "http://delta:3000"]).2).map Registry.hostname
      = [Registry.new "beta" "http://beta:3000",
         Registry.new "delta" "http://delta:3000"].map Registry.hostname :=
  C9_put_existing_hostname_preserves_peers "beta" (Body.json ["y"])
    [Registry.new "beta" "http://beta:3000",
     Registry.new "delta" "http://delta:3000"] (by decide)

/-! ## Claim C1 -/

/-- C1: DNS cascade precedence.  For a query whose service key is contained
in the self registry (publicly or privately) and also in some peer's public
services, the reply is the A record synthesized from the self registry's
hostname — its resolved IPv4 with TTL 0 — not from the peer's hostname: self
is consulted before peers. -/
theorem C1_self_precedes_peers (lookup : LookupHost) (self_registry : Registry)
    (registries : List Registry) (name : String) (d : RData)
    (hsvc : self_registry.has_public_service (extract_service name) = true ∨
      self_registry.has_private_service (extract_service name) = true)
    (_hpeer : ∃ r ∈ registries, r.has_public_service (extract_service name) = true)
    (hres : query_upstream lookup self_registry.hostname = some d) :
    handle_request lookup self_registry registries name
      = { answers := [{ name := name, ttl := 0, data := d }]
          rcode := ResponseCode.NoError
          authoritative := true, recursion_available := true } := by
  have hself : query_self_registry lookup self_registry (extract_service name) = some d := by
    rcases hsvc with h | h <;>
      simp [query_self_registry, h, Registry.try_into_rdata, hres, Except.toOption]
  simp [handle_request, hself, Option.or]

/-- Witness for C1: alpha and the peer beta both hold svc; the query resolves
through alpha's address 11, not beta's. -/
theorem C1_self_precedes_peers_witness :
    handle_request lookupAlphaDelta selfWithSvc [betaWithSvc] "svc.public."
      = { answers := [{ name := "svc.public.", ttl := 0, data := RData.A 11 }]
          rcode := ResponseCode.NoError
          authoritative := true, recursion_available := true } :=
  C1_self_precedes_peers lookupAlphaDelta selfWithSvc [betaWithSvc]
    "svc.public." (RData.A 11) (Or.inl (by decide)) (by decide) (by decide)

/-! ## Claim C2 -/

/-- C2 counterexample: the service key svc is contained in the self registry,
resolving the registry hostname alpha fails, yet the reply is synthesized
from the upstream resolution of the original query name (address 93): the
upstream step IS taken although a registry contained the key.  The source's
or-chain turns a synthesis failure into a fall-through. -/
theorem C2_counterexample :
    selfWithSvc.has_public_service "svc" = true ∧
    extract_service "svc.public." = "svc" ∧
    query_upstream lookupOnlyQueryName selfWithSvc.hostname = none ∧
    query_upstream lookupOnlyQueryName "svc.public." = some (RData.A 93) ∧
    handle_request lookupOnlyQueryName selfWithSvc [] "svc.public."
      = { answers := [{ name := "svc.public.", ttl := 0, data := RData.A 93 }]
          rcode := ResponseCode.NoError
          authoritative := true, recursion_available := true } := by
  decide

/-- C2 amended: when a registry contains the service key but resolving its
hostname fails, the match is dropped and the cascade continues all the way to
upstream: with the self registry matching, its hostname unresolvable, and no
peer containing the key, the reply carries upstream's IPv4 for the original
query name whenever upstream yields one. -/
theorem C2_fallthrough_on_synthesis_failure (lookup : LookupHost)
    (self_registry : Registry) (registries : List Registry) (name : String)
    (d : RData)
    (hsvc : self_registry.has_public_service (extract_service name) = true ∨
      self_registry.has_private_service (extract_service name) = true)
    (hfail : query_upstream lookup self_registry.hostname = none)
    (hpeers : ∀ r ∈ registries, r.has_public_service (extract_service name) = false)
    (hup : query_upstream lookup name = some d) :
    handle_request lookup self_registry registries name
      = { answers := [{ name := name, ttl := 0, data := d }]
          rcode := ResponseCode.NoError
          authoritative := true, recursion_available := true } := by
  have hself : query_self_registry lookup self_registry (extract_service name) = none := by
    rcases hsvc with h | h <;>
      simp [query_self_registry, h, Registry.try_into_rdata, hfail, Except.toOption]
  have hregs := query_registries_none lookup registries (extract_service name) hpeers
  simp [handle_request, hself, hregs, hup, Option.or]

/-- Witness for C2's amended claim at the counterexample's concrete input. -/
theorem C2_fallthrough_on_synthesis_failure_witness :
    handle_request lookupOnlyQueryName selfWithSvc [] "svc.public."
      = { answers := [{ name := "svc.public.", ttl := 0, data := RData.A 93 }]
          rcode := ResponseCode.NoError
          authoritative := true, recursion_available := true } :=
  C2_fallthrough_on_synthesis_failure lookupOnlyQueryName selfWithSvc []
    "svc.public." (RData.A 93) (Or.inl (by decide)) (by decide) (by decide)
    (by decide)

/-! ## Claim C7 -/

/-- C7: unknown-service fall-through.  When the service key is in no registry
— neither the self registry's two sets nor any peer's public services — the
handler answers with upstream's IPv4 for the original query name; and when
upstream yields no IPv4 either, the reply has response code NXDOMAIN and no
answer records. -/
theorem C7_unknown_service_fall_through (lookup : LookupHost)
    (self_registry : Registry) (registries : List Registry) (name : String)
    (h1 : self_registry.has_public_service (extract_service name) = false)
    (h2 : self_registry.has_private_service (extract_service name) = false)
    (h3 : ∀ r ∈ registries, r.has_public_service (extract_service name) = false) :
    handle_request lookup self_registry registries name
      = match query_upstream lookup name with
        | some d =>
          { answers := [{ name := name, ttl := 0, data := d }]
            rcode := ResponseCode.NoError
            authoritative := true, recursion_available := true }
        | none =>
          { answers := []
            rcode := ResponseCode.NXDomain
            authoritative := true, recursion_available := true } := by
  have hself : query_self_registry lookup self_registry (extract_service name) = none := by
    simp [query_self_registry, h1, h2]
  have hregs := query_registries_none lookup registries (extract_service name) h3
  cases hup : query_upstream lookup name <;>
    simp [handle_request, hself, hregs, hup, Option.or]

/-- Witness for C7: a name in no registry with a failing upstream yields
NXDOMAIN with no answers. -/
theorem C7_unknown_service_fall_through_witness :
    handle_request lookupNone selfWithSvc [betaWithSvc] "unknown.example."
      = { answers := []
          rcode := ResponseCode.NXDomain
          authoritative := true, recursion_available := true } := by
  have h := C7_unknown_service_fall_through lookupNone selfWithSvc [betaWithSvc]
    "unknown.example." (by decide) (by decide) (by decide)
  exact h.trans (by decide)

/-! ## Claim C10 -/

/-- C10: the peer stage commits to the first peer in list order whose public
services contain the key: when that peer's hostname fails to resolve, the
stage returns no data — without consulting any later peer, even when a later
peer also contains the key and its hostname would resolve. -/
theorem C10_first_matching_peer_commits (lookup : LookupHost)
    (pre : List Registry) (r : Registry) (rest : List Registry) (svc : String)
    (hpre : ∀ p ∈ pre, p.has_public_service svc = false)
    (hr : r.has_public_service svc = true)
    (hfail : query_upstream lookup r.hostname = none)
    (_hlater : ∃ q ∈ rest, q.has_public_service svc = true ∧
      (query_upstream lookup q.hostname).isSome = true) :
    query_registries lookup (pre ++ r :: rest) svc = none := by
  rw [query_registries_skip lookup pre (r :: rest) svc hpre]
  simp [query_registries, hr, Registry.try_into_rdata, hfail, Except.toOption]

/-- Witness for C10: beta is the first peer holding svc and does not resolve;
the later peer delta holds svc and resolves, yet the stage yields nothing. -/
theorem C10_first_matching_peer_commits_witness :
    query_registries lookupAlphaDelta
        ([Registry.new "p" "http://p:3000"] ++ betaWithSvc :: [deltaWithSvc]) "svc"
      = none :=
  C10_first_matching_peer_commits lookupAlphaDelta
    [Registry.new "p" "http://p:3000"] betaWithSvc [deltaWithSvc] "svc"
    (by decide) (by decide) (by decide) (by decide)

/-! ## Harvest characterization lemmas -/

theorem mem_public_foldl (ts : List String) (r : Registry) (s : String) :
    s ∈ (ts.foldl process_address r).public_services ↔
      s ∈ r.public_services ∨
        ∃ a ∈ ts, capture_service a PUBLIC_SERVICE_TLD = some s := by
  induction ts generalizing r with
  | nil => simp
  | cons a ts ih =>
    rw [List.foldl_cons, ih]
    unfold process_address
    cases hp : capture_service a PUBLIC_SERVICE_TLD with
    | some v =>
      simp only [Registry.add_public_service, Finset.mem_insert, hp,
        List.mem_cons]
      constructor
      · rintro (⟨rfl | hmem⟩ | ⟨b, hb, hcap⟩)
        · exact Or.inr ⟨a, Or.inl rfl, hp⟩
        · exact Or.inl hmem
        · exact Or.inr ⟨b, Or.inr hb, hcap⟩
      · rintro (hmem | ⟨b, rfl | hb, hcap⟩)
        · exact Or.inl (Or.inr hmem)
        · rw [hp] at hcap
          exact Or.inl (Or.inl (Option.some_injective _ hcap).symm)
        · exact Or.inr ⟨b, hb, hcap⟩
    | none =>
      cases hq : capture_service a PRIVATE_SERVICE_TLD with
      | some v =>
        simp only [Registry.add_private_service, List.mem_cons]
        constructor
        · rintro (hmem | ⟨b, hb, hcap⟩)
          · exact Or.inl hmem
          · exact Or.inr ⟨b, Or.inr hb, hcap⟩
        · rintro (hmem | ⟨b, rfl | hb, hcap⟩)
          · exact Or.inl hmem
          · rw [hp] at hcap; cases hcap
          · exact Or.inr ⟨b, hb, hcap⟩
      | none =>
        simp only [List.mem_cons]
        constructor
        · rintro (hmem | ⟨b, hb, hcap⟩)
          · exact Or.inl hmem
          · exact Or.inr ⟨b, Or.inr hb, hcap⟩
        · rintro (hmem | ⟨b, rfl | hb, hcap⟩)
          · exact Or.inl hmem
          · rw [hp] at hcap; cases hcap
          · exact Or.inr ⟨b, hb, hcap⟩

theorem mem_private_foldl (ts : List String) (r : Registry) (s : String) :
    s ∈ (ts.foldl process_address r).private_services ↔
      s ∈ r.private_services ∨
        ∃ a ∈ ts, capture_service a PUBLIC_SERVICE_TLD = none ∧
          capture_service a PRIVATE_SERVICE_TLD = some s := by
  induction ts generalizing r with
  | nil => simp
  | cons a ts ih =>
    rw [List.foldl_cons, ih]
    unfold process_address
    cases hp : capture_service a PUBLIC_SERVICE_TLD with
    | some v =>
      simp only [Registry.add_public_service, List.mem_cons]
      constructor
      · rintro (hmem | ⟨b, hb, hcap⟩)
        · exact Or.inl hmem
        · exact Or.inr ⟨b, Or.inr hb, hcap⟩
      · rintro (hmem | ⟨b, rfl | hb, hnone, hcap⟩)
        · exact Or.inl hmem
        · rw [hp] at hnone; cases hnone
        · exact Or.inr ⟨b, hb, hnone, hcap⟩
    | none =>
      cases hq : capture_service a PRIVATE_SERVICE_TLD with
      | some v =>
        simp only [Registry.add_private_service, Finset.mem_insert,
          List.mem_cons]
        constructor
        · rintro (⟨rfl | hmem⟩ | ⟨b, hb, hcap⟩)
          · exact Or.inr ⟨a, Or.inl rfl, hp, hq⟩
          · exact Or.inl hmem
          · exact Or.inr ⟨b, Or.inr hb, hcap⟩
        · rintro (hmem | ⟨b, rfl | hb, hnone, hcap⟩)
          · exact Or.inl (Or.inr hmem)
          · rw [hq] at hcap
            exact Or.inl (Or.inl (Option.some_injective _ hcap).symm)
          · exact Or.inr ⟨b, hb, hnone, hcap⟩
      | none =>
        simp only [List.mem_cons]
        constructor
        · rintro (hmem | ⟨b, hb, hcap⟩)
          · exact Or.inl hmem
          · exact Or.inr ⟨b, Or.inr hb, hcap⟩
        · rintro (hmem | ⟨b, rfl | hb, hnone, hcap⟩)
          · exact Or.inl hmem
          · rw [hq] at hcap; cases hcap
          · exact Or.inr ⟨b, hb, hnone, hcap⟩

theorem foldl_values (vs : List String) (r : Registry) :
    vs.foldl (fun reg value => (parse_address value).foldl process_address reg) r
      = (vs.flatMap parse_address).foldl process_address r := by
  induction vs generalizing r with
  | nil => rfl
  | cons v vs ih => rw [List.foldl_cons, List.flatMap_cons, List.foldl_append, ih]

theorem flush_eq_tokens (r : Registry) (cs : List Container) :
    flush_registry_services r cs
      = (harvest_tokens cs).foldl process_address
          (r.clear_public_services.clear_private_services) := by
  unfold flush_registry_services harvest_tokens
  generalize r.clear_public_services.clear_private_services = r0
  induction cs generalizing r0 with
  | nil => rfl
  | cons c cs ih =>
    rw [List.foldl_cons, List.flatMap_cons, List.foldl_append, ← ih]
    unfold process_container
    rw [foldl_values]

/-! ## Claim C4 -/

/-- C4 counterexample: one container carrying the label caddy with value
listing both x.public and x.private.  Each token classifies uniquely (the
public token does not match the private regex and vice versa), the listing
succeeds, yet after the harvest the service name x is in BOTH sets of the
self registry: the sets are not disjoint.  Nothing makes the last
classification win — both inserts stick. -/
theorem C4_counterexample :
    capture_service "x.public" PUBLIC_SERVICE_TLD = some "x" ∧
    capture_service "x.public" PRIVATE_SERVICE_TLD = none ∧
    capture_service "x.private" PRIVATE_SERVICE_TLD = some "x" ∧
    capture_service "x.private" PUBLIC_SERVICE_TLD = none ∧
    "x" ∈ (flush_registry_services (Registry.new "alpha" "http://0.0.0.0:3000")
        [{ name := "c1", labels := [("caddy", "x.public, x.private")] }]).public_services ∧
    "x" ∈ (flush_registry_services (Registry.new "alpha" "http://0.0.0.0:3000")
        [{ name := "c1", labels := [("caddy", "x.public, x.private")] }]).private_services := by
  decide

/-- C4 amended: immediately after a successful harvest the two service sets
of the self registry are disjoint PROVIDED no service name is captured both
by a public-classified token and by a private-classified token of the same
harvest (distinct tokens may otherwise land the same name in both sets; a
single token always classifies uniquely). -/
theorem C4_harvest_disjoint (r : Registry) (cs : List Container)
    (h : ∀ a ∈ harvest_tokens cs, ∀ b ∈ harvest_tokens cs,
      capture_service a PUBLIC_SERVICE_TLD = none ∨
        capture_service a PUBLIC_SERVICE_TLD ≠ capture_service b PRIVATE_SERVICE_TLD) :
    Disjoint (flush_registry_services r cs).public_services
      (flush_registry_services r cs).private_services := by
  rw [Finset.disjoint_left]
  intro s hpub hpriv
  rw [flush_eq_tokens] at hpub hpriv
  rcases (mem_public_foldl _ _ _).mp hpub with hmem | ⟨a, ha, hcapa⟩
  · simp [Registry.clear_public_services, Registry.clear_private_services] at hmem
  rcases (mem_private_foldl _ _ _).mp hpriv with hmem | ⟨b, hb, _, hcapb⟩
  · simp [Registry.clear_public_services, Registry.clear_private_services] at hmem
  rcases h a ha b hb with hno | hne
  · rw [hno] at hcapa; cases hcapa
  · exact hne (hcapa.trans hcapb.symm)

/-- Witness for C4's amended claim at a harvest that captures a publicly and
b privately. -/
theorem C4_harvest_disjoint_witness :
    Disjoint
      (flush_registry_services (Registry.new "alpha" "http://0.0.0.0:3000")
        [{ name := "c1", labels := [("caddy", "a.public b.private")] }]).public_services
      (flush_registry_services (Registry.new "alpha" "http://0.0.0.0:3000")
        [{ name := "c1", labels := [("caddy", "a.public b.private")] }]).private_services :=
  C4_harvest_disjoint (Registry.new "alpha" "http://0.0.0.0:3000")
    [{ name := "c1", labels := [("caddy", "a.public b.private")] }] (by decide)

/-! ## Trimming lemmas for the service-key extraction -/

theorem trimEndList_not_suffix (pat l : List Char)
    (h : pat.isSuffixOf l = false) : ∀ n, trimEndList pat n l = l
  | 0 => rfl
  | Nat.succ n => by simp [trimEndList, h]

theorem trimEndList_append (pat a : List Char) (hne : pat ≠ [])
    (h : pat.isSuffixOf a = false) (n : Nat) (hn : 1 ≤ n) :
    trimEndList pat n (a ++ pat) = a := by
  obtain ⟨m, rfl⟩ : ∃ m, n = m + 1 := ⟨n - 1, by omega⟩
  have hsuf : pat.isSuffixOf (a ++ pat) = true :=
    List.isSuffixOf_iff_suffix.mpr (List.suffix_append a pat)
  have hemp : pat.isEmpty = false := by
    cases pat with
    | nil => exact absurd rfl hne
    | cons x xs => rfl
  have htake : (a ++ pat).take ((a ++ pat).length - pat.length) = a := by
    rw [List.length_append, Nat.add_sub_cancel, List.take_left]
  rw [trimEndList, if_pos (by rw [hsuf, hemp]; rfl), htake]
  exact trimEndList_not_suffix pat a h m

theorem singleton_not_suffix (x c : Char) (l : List Char)
    (hl : l.getLast? = some c) (hne : c ≠ x) : [x].isSuffixOf l = false := by
  rw [Bool.eq_false_iff]
  intro hsuf
  obtain ⟨t, ht⟩ := List.isSuffixOf_iff_suffix.mp hsuf
  subst ht
  rw [List.getLast?_concat] at hl
  exact hne (Option.some_injective _ hl).symm

theorem suffix_eq_of_length (p₁ p₂ l : List Char) (h1 : p₁ <:+ l) (h2 : p₂ <:+ l)
    (hlen : p₁.length = p₂.length) : p₁ = p₂ := by
  obtain ⟨t₁, rfl⟩ := h1
  obtain ⟨t₂, ht⟩ := h2
  have hl : t₂.length = t₁.length := by
    have := congrArg List.length ht
    simp only [List.length_append] at this
    omega
  exact ((List.append_inj ht hl).2).symm

/-! ## Claim C5 -/

theorem trim_end_mk_strip (pat : String) (a : List Char) (hne : pat.data ≠ [])
    (h : pat.data.isSuffixOf a = false) :
    trim_end_matches pat (String.mk (a ++ pat.data)) = String.mk a := by
  show String.mk (trimEndList pat.data (a ++ pat.data).length (a ++ pat.data)) = String.mk a
  rw [trimEndList_append pat.data a hne h _ ?_]
  have := List.length_pos.mpr hne
  rw [List.length_append]
  omega

theorem trim_end_mk_id (pat : String) (a : List Char)
    (h : pat.data.isSuffixOf a = false) :
    trim_end_matches pat (String.mk a) = String.mk a := by
  show String.mk (trimEndList pat.data a.length a) = String.mk a
  rw [trimEndList_not_suffix pat.data a h]

/-- C5 counterexample: the code's extraction strips the public suffix and
then ALSO a private suffix at the query x.private.public. (yielding the key
x), and strips two public occurrences at a.public.public. (yielding a) —
while the procedure the claim describes, which strips at most one trailing
suffix and never both, yields x.private and a.public respectively. -/
theorem C5_counterexample :
    extract_service "x.private.public." = "x" ∧
    extract_service_spec "x.private.public." = "x.private" ∧
    ("x" : String) ≠ "x.private" ∧
    extract_service "a.public.public." = "a" ∧
    extract_service_spec "a.public.public." = "a.public" ∧
    ("a" : String) ≠ "a.public" := by
  decide

/-- C5 amended: the code strips ALL trailing dots, then ALL trailing dotted
public-TLD occurrences, then ALL trailing dotted private-TLD occurrences
(Rust trim_end_matches removes its pattern repeatedly, and the public stage
runs before the private stage, so mixed stacks such as x.private.public lose
both suffixes).  The claimed consequence survives for every service name
that itself ends in none of the three patterns: queries svc.public.,
svc.private., and svc. all yield the service key svc. -/
theorem C5_tld_stripping_amended (svc : String)
    (h1 : (['.'] : List Char).isSuffixOf svc.data = false)
    (h2 : ".public".data.isSuffixOf svc.data = false)
    (h3 : ".private".data.isSuffixOf svc.data = false) :
    extract_service (svc ++ ".public.") = svc ∧
    extract_service (svc ++ ".private.") = svc ∧
    extract_service (svc ++ ".") = svc := by
  refine ⟨?_, ?_, ?_⟩
  · have e0 : svc ++ ".public." = String.mk ((svc.data ++ ".public".data) ++ ['.']) := by
      show String.mk (svc.data ++ ".public.".data) = _
      rw [List.append_assoc, show (".public".data ++ ['.'] : List Char) = ".public.".data from by decide]
    have hlast : (svc.data ++ ".public".data).getLast? = some 'c' := by
      rw [List.getLast?_append, show (".public".data.getLast? : Option Char) = some 'c' from by decide]
      rfl
    have hA : trim_end_matches "." (svc ++ ".public.") = String.mk (svc.data ++ ".public".data) := by
      rw [e0]
      exact trim_end_mk_strip "." (svc.data ++ ".public".data) (by decide)
        (singleton_not_suffix '.' 'c' _ hlast (by decide))
    have hB : trim_end_matches ("." ++ PUBLIC_SERVICE_TLD)
        (String.mk (svc.data ++ ".public".data)) = String.mk svc.data := by
      rw [show ("." ++ PUBLIC_SERVICE_TLD : String) = ".public" from by decide]
      exact trim_end_mk_strip ".public" svc.data (by decide) h2
    have hC : trim_end_matches ("." ++ PRIVATE_SERVICE_TLD) (String.mk svc.data)
        = String.mk svc.data := by
      rw [show ("." ++ PRIVATE_SERVICE_TLD : String) = ".private" from by decide]
      exact trim_end_mk_id ".private" svc.data h3
    unfold extract_service
    rw [hA, hB, hC]
  · have e0 : svc ++ ".private." = String.mk ((svc.data ++ ".private".data) ++ ['.']) := by
      show String.mk (svc.data ++ ".private.".data) = _
      rw [List.append_assoc, show (".private".data ++ ['.'] : List Char) = ".private.".data from by decide]
    have hlast : (svc.data ++ ".private".data).getLast? = some 'e' := by
      rw [List.getLast?_append, show (".private".data.getLast? : Option Char) = some 'e' from by decide]
      rfl
    have hA : trim_end_matches "." (svc ++ ".private.") = String.mk (svc.data ++ ".private".data) := by
      rw [e0]
      exact trim_end_mk_strip "." (svc.data ++ ".private".data) (by decide)
        (singleton_not_suffix '.' 'e' _ hlast (by decide))
    have hnse : ".public".data.isSuffixOf (svc.data ++ ".private".data) = false := by
      rw [Bool.eq_false_iff]
      intro htrue
      have hs1 := List.isSuffixOf_iff_suffix.mp htrue
      have hs2 : "private".data <:+ svc.data ++ ".private".data :=
        ⟨svc.data ++ ['.'], by
          rw [List.append_assoc, show (['.'] ++ "private".data : List Char) = ".private".data from by decide]⟩
      have heq := suffix_eq_of_length _ _ _ hs1 hs2 (by decide)
      exact absurd heq (by decide)
    have hB : trim_end_matches ("." ++ PUBLIC_SERVICE_TLD)
        (String.mk (svc.data ++ ".private".data))
        = String.mk (svc.data ++ ".private".data) := by
      rw [show ("." ++ PUBLIC_SERVICE_TLD : String) = ".public" from by decide]
      exact trim_end_mk_id ".public" _ hnse
    have hC : trim_end_matches ("." ++ PRIVATE_SERVICE_TLD)
        (String.mk (svc.data ++ ".private".data)) = String.mk svc.data := by
      rw [show ("." ++ PRIVATE_SERVICE_TLD : String) = ".private" from by decide]
      exact trim_end_mk_strip ".private" svc.data (by decide) h3
    unfold extract_service
    rw [hA, hB, hC]
  · have e0 : svc ++ "." = String.mk (svc.data ++ ".".data) := rfl
    have hA : trim_end_matches "." (svc ++ ".") = String.mk svc.data := by
      rw [e0]; exact trim_end_mk_strip "." svc.data (by decide) h1
    have hB : trim_end_matches ("." ++ PUBLIC_SERVICE_TLD) (String.mk svc.data)
        = String.mk svc.data := by
      rw [show ("." ++ PUBLIC_SERVICE_TLD : String) = ".public" from by decide]
      exact trim_end_mk_id ".public" svc.data h2
    have hC : trim_end_matches ("." ++ PRIVATE_SERVICE_TLD) (String.mk svc.data)
        = String.mk svc.data := by
      rw [show ("." ++ PRIVATE_SERVICE_TLD : String) = ".private" from by decide]
      exact trim_end_mk_id ".private" svc.data h3
    unfold extract_service
    rw [hA, hB, hC]

/-- Witness for C5's amended claim at the service name billing. -/
theorem C5_tld_stripping_amended_witness :
    extract_service ("billing" ++ ".public.") = "billing" ∧
    extract_service ("billing" ++ ".private.") = "billing" ∧
    extract_service ("billing" ++ ".") = "billing" :=
  C5_tld_stripping_amended "billing" (by decide) (by decide) (by decide)

end CaddySD
